import Mathlib

/-!
# A verification model of the iniparser dictionary engine

This file is a shallow embedding of `src/dictionary.c` (the dictionary engine
of the eddyem/iniparser repository): the hash function, the section/key stores,
the find/set/get operations, the dump renderer, and the two sort orders.

Modelling conventions:
* C strings are Lean `String`s; a `NULL` pointer is `none` of `Option String`.
  Characters are modelled by their code points, which coincides with the byte
  values the C code hashes and compares for ASCII data (all concrete inputs
  used below are ASCII).
* 32-bit unsigned arithmetic is `Nat` arithmetic with explicit `% 2^32`;
  `x << k` is `x * 2^k` and `x >> k` is `x / 2^k`.
* The process-global lookup cache (`static dictentry *de_last; static hash_t
  hash_last;` in dictionary.c) is part of the state (`DState`), holding an
  index into the section array (a pointer into `d->entries`) or a reference to
  the unnamed section.  A fresh process has `de_last = NULL, hash_last = 0`.
* A `keyval` slot or a `dictentry` slot zeroed by `memset` has `key = none`
  (NULL), `val = none`, `hash = 0` — a tombstone.  `strcmp` of the searched
  key against a tombstone's NULL key (reachable in C only when the searched
  key hashes to 0) is modelled as a mismatch.
* Growable arrays carry their first `n` slots as a `List` plus the capacity
  `len`; the C code never reads slots beyond `n`.  New section slots are
  modelled as zero-initialised, matching the `calloc` of `dictionary_new`;
  after `dictionary_grow` the C code actually reads uninitialised memory for
  slots beyond the original allocation, so theorems about section creation
  carry a spare-capacity hypothesis keeping them inside defined behaviour.
* `realloc` failure is modelled by Boolean allocation oracles (`aD` for
  `dictionary_grow`, `aE` for `dictentry_grow`).
* `qsort` is modelled by a stable insertion sort; for the comparators used
  here every list with pairwise comparator-distinct elements has a unique
  sorted arrangement, and concrete counterexamples only rely on orderings any
  conforming `qsort` must produce (or on ties whose order is irrelevant).
-/

namespace IniDict

/-- One mixing step of the one-at-a-time hash of `dictionary_hash`:
`hash += key[i]; hash += hash<<10; hash ^= hash>>6;` on `uint32_t`. -/
def hashStep (h : Nat) (c : Nat) : Nat :=
  let h1 := (h + c) % 2^32
  let h2 := (h1 + h1 * 2^10) % 2^32
  Nat.xor h2 (h2 / 2^6)

/-- `dictionary_hash` of dictionary.c (Jenkins one-at-a-time, 32-bit). -/
def dictionary_hash (s : String) : Nat :=
  let h0 := s.data.foldl (fun h c => hashStep h c.toNat) 0
  let h1 := (h0 + h0 * 2^3) % 2^32
  let h2 := Nat.xor h1 (h1 / 2^11)
  (h2 + h2 * 2^15) % 2^32

/-- `keyval` of dictionary.h: a key/value pair with the hash of the key.
`key = none` models a NULL `char *` (a tombstone after `memset`). -/
structure keyval where
  key : Option String
  val : Option String
  hash : Nat
deriving Repr, DecidableEq

/-- An all-zero `keyval` (fresh `calloc` slot or `memset` tombstone). -/
def keyval.zero : keyval := ⟨none, none, 0⟩

/-- `dictentry` of dictionary.h: one section.  `kvlist` holds the first `n`
slots of the C array (`n = kvlist.length`), `len` is the allocated capacity. -/
structure dictentry where
  kvlist : List keyval
  len : Nat
  sorted : Bool
  name : Option String
  hash : Nat
deriving Repr, DecidableEq

/-- An all-zero `dictentry` (fresh slot or `memset` tombstoned section). -/
def dictentry.zero : dictentry := ⟨[], 0, false, none, 0⟩

/-- `dictionary` of dictionary.h.  `entries` holds the first `n` section
slots, `len` the capacity of the section array. -/
structure dictionary where
  entries : List dictentry
  len : Nat
  noname : dictentry
  sorted : Bool
deriving Repr, DecidableEq

/-- A reference to a section: the unnamed section `d->noname`, or a pointer
`&d->entries[i]` into the section array. -/
inductive SecRef where
  | noname
  | idx (i : Nat)
deriving Repr, DecidableEq

/-- The program state: one dictionary plus the process-global lookup cache
(`hash_last`, `de_last`). -/
structure DState where
  d : dictionary
  hash_last : Nat
  de_last : Option SecRef
deriving Repr, DecidableEq

/-- Dereference a section pointer. -/
def derefSec (d : dictionary) : SecRef → dictentry
  | .noname => d.noname
  | .idx i => d.entries.getD i dictentry.zero

/-- Write through a section pointer. -/
def updateSec (d : dictionary) (r : SecRef) (f : dictentry → dictentry) : dictionary :=
  match r with
  | .noname => { d with noname := f d.noname }
  | .idx i => { d with entries := d.entries.set i (f (d.entries.getD i dictentry.zero)) }

/-- `dictentry_new` of dictionary.c (capacity bumped to `ENTMINSZ = 10`;
`calloc` zeroes everything). -/
def dictentry_new (size : Nat) : dictentry :=
  { kvlist := [], len := if size < 10 then 10 else size,
    sorted := false, name := none, hash := 0 }

/-- `dictionary_new` of dictionary.c (capacity bumped to `DICTMINSZ = 5`). -/
def dictionary_new (size : Nat) : dictionary :=
  { entries := [], len := if size < 5 then 5 else size,
    noname := dictentry_new 0, sorted := false }

/-- A freshly created dictionary in a fresh process (cache `(0, NULL)`). -/
def DState.mk0 : DState := { d := dictionary_new 0, hash_last := 0, de_last := none }

/-- `strchr(str, ':')` splitting of an address: `some (before, after)` at the
first colon, `none` when the address has no colon. -/
def splitColonL : List Char → Option (List Char × List Char)
  | [] => none
  | c :: cs =>
    if c = ':' then some ([], cs)
    else match splitColonL cs with
      | none => none
      | some (p, r) => some (c :: p, r)

/-- Address splitting on `String`s. -/
def splitColon (s : String) : Option (String × String) :=
  match splitColonL s.data with
  | none => none
  | some (p, r) => some (⟨p⟩, ⟨r⟩)

/-- The match test both find loops use: hash equality first, then the string
comparison (`strcmp`) of the stored key/name against the searched one.  A
tombstone (`none`, i.e. a NULL pointer) never matches; in C that comparison
is `strcmp(key, NULL)`, reachable only when the searched string hashes to 0. -/
def itemMatch (hOf : α → Nat) (kOf : α → Option String) (hash : Nat) (key : String)
    (x : α) : Bool :=
  hOf x == hash && kOf x == some key

/-- The unsorted linear scan of `keyval_find` / `dictentry_find`: index of the
first matching slot. -/
def linFindIdx (p : α → Bool) : List α → Option Nat
  | [] => none
  | x :: xs => if p x then some 0 else (linFindIdx p xs).map (· + 1)

/-- The backward collision-cluster scan `while(i && l[--i].hash == hash);`:
from `i`, step left while the slot to the left still carries `hash`; stops at
index 0 without examining whether slot 0 itself still matches. -/
def clusterLeft (hOf : α → Nat) (z : α) (l : List α) (hash : Nat) : Nat → Nat
  | 0 => 0
  | i+1 => if hOf (l.getD i z) == hash then clusterLeft hOf z l hash i else i

/-- The forward collision-cluster scan `--L; while(i < L && l[++i].hash ==
hash) { if (!strcmp(...)) return ...; }`: pre-increments, so the slot at the
starting index is never string-compared by this loop. -/
def clusterRight (hOf : α → Nat) (kOf : α → Option String) (z : α) (l : List α)
    (hash : Nat) (key : String) (lim : Nat) : Nat → Nat → Option Nat
  | 0, _ => none
  | fuel+1, i =>
    if i < lim then
      let x := l.getD (i+1) z
      if hOf x == hash then
        if kOf x == some key then some (i+1)
        else clusterRight hOf kOf z l hash key lim fuel (i+1)
      else none
    else none

/-- The binary search of `keyval_find` / `dictentry_find` on a hash-sorted
array, including the collision-cluster scan taken on a hash match with a
string mismatch.  `fuel` only bounds the recursion; `l.length + 1` always
suffices for the initial call. -/
def bfind (hOf : α → Nat) (kOf : α → Option String) (z : α) (l : List α)
    (hash : Nat) (key : String) : Nat → Nat → Int → Option Nat
  | 0, _, _ => none
  | fuel+1, down, up =>
    if (down : Int) ≤ up then
      let i := (down + up.toNat) / 2
      let x := l.getD i z
      if hOf x == hash then
        if kOf x == some key then some i
        else clusterRight hOf kOf z l hash key (l.length - 1) l.length
          (clusterLeft hOf z l hash i)
      else if hOf x < hash then bfind hOf kOf z l hash key fuel (i+1) up
      else bfind hOf kOf z l hash key fuel down ((i : Int) - 1)
    else none

/-- `keyval_find` of dictionary.c: locate `key` in one section, by binary
search when `de->sorted`, else by linear scan.  Returns the slot index. -/
def keyval_find (de : dictentry) (key : String) : Option Nat :=
  let hash := dictionary_hash key
  if de.sorted then
    bfind keyval.hash keyval.key keyval.zero de.kvlist hash key
      (de.kvlist.length + 1) 0 ((de.kvlist.length : Int) - 1)
  else
    linFindIdx (itemMatch keyval.hash keyval.key hash key) de.kvlist

/-- The section-name match used by `dictentry_find`. -/
def secMatch (hash : Nat) (key : String) (de : dictentry) : Bool :=
  itemMatch dictentry.hash dictentry.name hash key de

/-- The search part of `dictentry_find`: binary search when `d->sorted`,
else linear scan of the section array. -/
def secSearch (d : dictionary) (hash : Nat) (key : String) : Option Nat :=
  if d.sorted then
    bfind dictentry.hash dictentry.name dictentry.zero d.entries hash key
      (d.entries.length + 1) 0 ((d.entries.length : Int) - 1)
  else
    linFindIdx (secMatch hash key) d.entries

/-- `dictentry_find` of dictionary.c: locate the section named `key`.
First consults the global cache — `if (hash_last == hash) return de_last;` —
returning the remembered section (or NULL) on a mere hash match, without any
string comparison and without updating the cache.  Otherwise runs
`secSearch` and, on success, remembers the found section in the cache. -/
def dictentry_find (st : DState) (key : String) : Option SecRef × DState :=
  let hash := dictionary_hash key
  if st.hash_last == hash then (st.de_last, st)
  else
    match secSearch st.d hash key with
    | some i =>
      (some (.idx i),
       { st with hash_last := (st.d.entries.getD i dictentry.zero).hash,
                 de_last := some (.idx i) })
    | none => (none, st)

/-- `dictionary_get` of dictionary.c (arguments non-NULL; see
`dictionary_getN` for the NULL cases).  Returns the value (or the default)
and the state, whose cache `dictentry_find` may have updated. -/
def dictionary_get (st : DState) (key : String) (dflt : Option String) :
    Option String × DState :=
  match splitColon key with
  | some (s, k) =>
    match dictentry_find st s with
    | (none, st1) => (dflt, st1)
    | (some r, st1) =>
      let de := derefSec st1.d r
      match keyval_find de k with
      | some i => ((de.kvlist.getD i keyval.zero).val, st1)
      | none => (dflt, st1)
  | none =>
    let de := st.d.noname
    match keyval_find de key with
    | some i => ((de.kvlist.getD i keyval.zero).val, st)
    | none => (dflt, st)

/-- Erase the found pair: `free(kv->key); memset(kv, 0, sizeof(keyval));
de->sorted = 0;` (dictionary_set, deletion of an existing key). -/
def eraseKV (de : dictentry) (i : Nat) : dictentry :=
  { de with kvlist := de.kvlist.set i keyval.zero, sorted := false }

/-- Replace the found pair's value: `free(kv->val); kv->val = strdup(val);`
(dictionary_set, replacement).  Nothing else is touched. -/
def setValKV (de : dictentry) (i : Nat) (v : String) : dictentry :=
  { de with kvlist :=
      de.kvlist.set i { de.kvlist.getD i keyval.zero with val := some v } }

/-- A newly created section slot: zeroed slot with `name = strdup(dup)` and
`hash = dictionary_hash(dup)` (dictionary_set, section creation). -/
def newSec (s : String) : dictentry :=
  { dictentry.zero with name := some s, hash := dictionary_hash s }

/-- Lines 486–501 of dictionary.c: append a new pair to the resolved section
`r` — update the cache to `(de->hash, de)`, clear `de->sorted`, grow the pair
array by `ENTMINSZ = 10` when full (failure aborts with `-1`, leaving the
cache update and the cleared flag behind), then append `{key, val, hash}`. -/
def setAppend2 (aE : Bool) (st : DState) (r : SecRef) (k v : String) :
    Int × DState :=
  let de := derefSec st.d r
  let st1 : DState := { st with hash_last := de.hash, de_last := some r }
  let de1 := { de with sorted := false }
  if de1.kvlist.length == de1.len then
    if aE then
      (0, { st1 with d := updateSec st1.d r (fun _ =>
        { de1 with len := de1.len + 10,
                   kvlist := de1.kvlist ++ [⟨some k, some v, dictionary_hash k⟩] }) })
    else (-1, { st1 with d := updateSec st1.d r (fun _ => de1) })
  else
    (0, { st1 with d := updateSec st1.d r (fun _ =>
      { de1 with kvlist := de1.kvlist ++ [⟨some k, some v, dictionary_hash k⟩] }) })

/-- Lines 466–501 of dictionary.c: the not-found tail of `dictionary_set`.
`val = NULL` is a no-op success.  Otherwise, when no section was resolved and
the address was sectioned, clear `d->sorted`, grow the section array by
`DICTMINSZ = 5` when full (failure aborts with `-1`, the cleared `d->sorted`
remaining), create the named section, and append via `setAppend2`. -/
def setAppend (aD aE : Bool) (st : DState) (deRef : Option SecRef)
    (mkSec : Option String) (k : String) (val : Option String) : Int × DState :=
  match val with
  | none => (0, st)
  | some v =>
    match deRef with
    | some r => setAppend2 aE st r k v
    | none =>
      match mkSec with
      | none => setAppend2 aE st .noname k v
      | some secName =>
        let d0 := { st.d with sorted := false }
        if d0.entries.length == d0.len then
          if aD then
            setAppend2 aE
              { st with d := { d0 with len := d0.len + 5,
                                       entries := d0.entries ++ [newSec secName] } }
              (.idx d0.entries.length) k v
          else (-1, { st with d := d0 })
        else
          setAppend2 aE
            { st with d := { d0 with entries := d0.entries ++ [newSec secName] } }
            (.idx d0.entries.length) k v

/-- Lines 448–501 of dictionary.c: with the section resolved (`deRef`), either
replace/erase an existing pair found by `keyval_find`, or fall through to the
append tail. -/
def setCommon (aD aE : Bool) (st : DState) (deRef : Option SecRef)
    (mkSec : Option String) (k : String) (val : Option String) : Int × DState :=
  match deRef with
  | some r =>
    let de := derefSec st.d r
    match keyval_find de k with
    | some i =>
      match val with
      | none => (0, { st with d := updateSec st.d r (fun e => eraseKV e i) })
      | some v => (0, { st with d := updateSec st.d r (fun e => setValKV e i v) })
    | none => setAppend aD aE st (some r) mkSec k val
  | none => setAppend aD aE st none mkSec k val

/-- `dictionary_set` of dictionary.c (arguments non-NULL; see
`dictionary_setN`).  A sectioned address resolves its section with
`dictentry_find`; a bare address with `val = NULL` first tries to delete a
whole section of that name (`dictentry_del` + `memset` + `d->sorted = 0`),
and otherwise targets the unnamed section directly. -/
def dictionary_set (aD aE : Bool) (st : DState) (key : String)
    (val : Option String) : Int × DState :=
  match splitColon key with
  | some (s, k) =>
    let fr := dictentry_find st s
    setCommon aD aE fr.2 fr.1 (some s) k val
  | none =>
    match val with
    | none =>
      let fr := dictentry_find st key
      match fr.1 with
      | some r =>
        (0, { fr.2 with d :=
          { (updateSec fr.2.d r (fun _ => dictentry.zero)) with sorted := false } })
      | none => setCommon aD aE fr.2 (some .noname) none key none
    | some _ => setCommon aD aE st (some .noname) none key val

/-- One rendered line of a dump: either a `key = value` line (the fixed-width
key padding of `"%-30s = %s\n"` is cosmetic and not modelled) or the
`\n[name]\n` section header line. -/
inductive dumpLine where
  | pair (key : String) (val : Option String)
  | header (name : Option String)
deriving Repr, DecidableEq

/-- `dictentry_dump` of dictionary.c: print every slot up to `n` whose key
pointer is non-NULL (tombstones are skipped). -/
def dictentry_dump (de : dictentry) : List dumpLine :=
  de.kvlist.filterMap (fun kv => kv.key.map (fun k => dumpLine.pair k kv.val))

/-- `dicterr_t` of dictionary.h. -/
inductive dicterr where
  | DERR_OK
  | DERR_BADDATA
  | DERR_EMPTY
deriving Repr, DecidableEq

/-- `dictionary_dump` of dictionary.c.  `dOpt = none` models a NULL
dictionary, `outOk = false` a NULL `FILE *`.  Note `if ((n = d->n) < 1)
return DERR_EMPTY;` tests only the section count: with zero sections the
unnamed pairs are never rendered.  Sections with `n = 0` (deleted) are
skipped; any other section prints its `[name]` header then its live pairs. -/
def dictionary_dump (dOpt : Option dictionary) (outOk : Bool) :
    dicterr × List dumpLine :=
  match dOpt with
  | none => (.DERR_BADDATA, [])
  | some d =>
    if !outOk then (.DERR_BADDATA, [])
    else if d.entries.length < 1 then (.DERR_EMPTY, [])
    else
      (.DERR_OK,
       dictentry_dump d.noname ++
         (d.entries.map (fun de =>
           if de.kvlist.length == 0 then []
           else dumpLine.header de.name :: dictentry_dump de)).flatten)

/-- Stable insertion of `x` into a `le`-sorted list. -/
def insertLe (le : α → α → Bool) (x : α) : List α → List α
  | [] => [x]
  | y :: ys => if le x y then x :: y :: ys else y :: insertLe le x ys

/-- Stable insertion sort: the canonical model of `qsort` (see the header
comment on comparator ties). -/
def isortBy (le : α → α → Bool) : List α → List α
  | [] => []
  | x :: xs => insertLe le x (isortBy le xs)

/-- `strcmp`-style lexicographic `≤` on character lists (byte order, which
coincides with code-point order on ASCII). -/
def charListLe : List Char → List Char → Bool
  | [], _ => true
  | _ :: _, [] => false
  | a :: as, b :: bs =>
    if a.toNat < b.toNat then true
    else if b.toNat < a.toNat then false
    else charListLe as bs

/-- `strcmp(x, y) <= 0` on strings. -/
def strLe (x y : String) : Bool := charListLe x.data y.data

/-- `cmpvals` of dictionary.c as a `≤` test: ascending pair hash. -/
def kvLeHash (a b : keyval) : Bool := a.hash ≤ b.hash

/-- `cmpentries` of dictionary.c: ascending section hash. -/
def secLeHash (a b : dictentry) : Bool := a.hash ≤ b.hash

/-- `cmpvalnm` of dictionary.c: `strcmp` of the keys when both are non-NULL,
otherwise "equal" (the comparator returns 0 for tombstones). -/
def kvLeName (a b : keyval) : Bool :=
  match a.key, b.key with
  | some x, some y => strLe x y
  | _, _ => true

/-- `cmpentrienm` of dictionary.c: `strcmp` of section names when both are
non-NULL, otherwise "equal". -/
def secLeName (a b : dictentry) : Bool :=
  match a.name, b.name with
  | some x, some y => strLe x y
  | _, _ => true

/-- `dictentry_sort` of dictionary.c: skip when empty or already flagged
sorted; otherwise sort the pairs by hash and set `sorted = 1`. -/
def dictentry_sort (de : dictentry) : dictentry :=
  if de.kvlist.length == 0 then de
  else if de.sorted then de
  else { de with kvlist := isortBy kvLeHash de.kvlist, sorted := true }

/-- `dictionary_sort_hash` of dictionary.c: hash-sort every section's pairs,
then the section array itself, and set `d->sorted = 1`.  The global lookup
cache is not touched, even though `qsort` moves section structs between the
slots cached pointers point into. -/
def dictionary_sort_hash (st : DState) : DState :=
  { st with d :=
    { st.d with noname := dictentry_sort st.d.noname,
                entries := isortBy secLeHash (st.d.entries.map dictentry_sort),
                sorted := true } }

/-- `dictentry_sort_nm` of dictionary.c: sort the pairs by key name.  The
`sorted` flag is left exactly as it was. -/
def dictentry_sort_nm (de : dictentry) : dictentry :=
  if de.kvlist.length == 0 then de
  else { de with kvlist := isortBy kvLeName de.kvlist }

/-- `dictionary_sort` of dictionary.c: name-sort every section's pairs and
the section array.  Neither `d->sorted` nor any section's `sorted` flag is
changed, so a previously hash-sorted flag survives a name sort. -/
def dictionary_sort (st : DState) : DState :=
  { st with d :=
    { st.d with noname := dictentry_sort_nm st.d.noname,
                entries := isortBy secLeName (st.d.entries.map dictentry_sort_nm) } }

/-- `dictionary_set` including its NULL-argument guard (line 431):
`if (d==NULL || key==NULL) return -1;` before anything is read or written. -/
def dictionary_setN (aD aE : Bool) (st : Option DState) (key : Option String)
    (val : Option String) : Int × Option DState :=
  match st, key with
  | none, _ => (-1, st)
  | some _, none => (-1, st)
  | some s, some k =>
    let r := dictionary_set aD aE s k val
    (r.1, some r.2)

/-- Outcome of running a C function that may hit undefined behaviour. -/
inductive CResult (α : Type) where
  | ok (a : α)
  | undef
deriving Repr, DecidableEq

/-- `dictionary_get` including NULL arguments.  The C function performs no
argument validation: `strdup(key)` with a NULL key is undefined behaviour,
and for a bare address `de = d->noname` dereferences a NULL dictionary; only
the sectioned path survives a NULL dictionary, because `dictentry_find`
checks `!d` and get then returns the default. -/
def dictionary_getN (st : Option DState) (key : Option String)
    (dflt : Option String) : CResult (Option String × Option DState) :=
  match key with
  | none => .undef
  | some k =>
    match splitColonL k.data with
    | some _ =>
      match st with
      | none => .ok (dflt, none)
      | some s =>
        let r := dictionary_get s k dflt
        .ok (r.1, some r.2)
    | none =>
      match st with
      | none => .undef
      | some s =>
        let r := dictionary_get s k dflt
        .ok (r.1, some r.2)

/-! ## Concrete states reached by API call sequences from a fresh dictionary

All of the states below are built only from `DState.mk0` (a fresh
`dictionary_new(0)` in a fresh process) by `dictionary_set` /
`dictionary_sort_hash` / `dictionary_sort` calls, so each is reachable. -/

/-- After `set("s:x", "1")`: one section `"s"` holding `x = 1`; the cache
remembers `(hash "s", &entries[0])`. -/
def stS1 : DState := (dictionary_set true true DState.mk0 "s:x" (some "1")).2

/-- After additionally `set("s", NULL)` (delete section `"s"`): the section
slot is tombstoned, but the cache still remembers `(hash "s", &entries[0])`. -/
def stS2 : DState := (dictionary_set true true stS1 "s" none).2

/-- Four global keys `aqaa, elue, x, a` (where `hash "aqaa" = hash "elue"`),
then `dictionary_sort_hash`: the colliding pair sorts to slots 0 and 1. -/
def stCol : DState :=
  dictionary_sort_hash
    ((dictionary_set true true
      ((dictionary_set true true
        ((dictionary_set true true
          ((dictionary_set true true DState.mk0 "aqaa" (some "1")).2)
          "elue" (some "2")).2)
        "x" (some "3")).2)
      "a" (some "4")).2)

/-- Two global keys `a = 1`, `b = 2` (name order `a < b`, hash order
`hash "b" < hash "a"`). -/
def stAB : DState :=
  (dictionary_set true true
    ((dictionary_set true true DState.mk0 "a" (some "1")).2) "b" (some "2")).2

/-- Five named sections `s1..s5`, filling the initial section capacity
(`DICTMINSZ = 5`), then `dictionary_sort_hash` (so `d->sorted = 1`). -/
def stFull : DState :=
  dictionary_sort_hash
    ((dictionary_set true true
      ((dictionary_set true true
        ((dictionary_set true true
          ((dictionary_set true true
            ((dictionary_set true true DState.mk0 "s1:a" (some "1")).2)
            "s2:a" (some "1")).2)
          "s3:a" (some "1")).2)
        "s4:a" (some "1")).2)
      "s5:a" (some "1")).2)

/-- One global key `g = 1` and no sections. -/
def stGlobal : DState := (dictionary_set true true DState.mk0 "g" (some "1")).2

/-- Sections `"a"` (holding `x = 1`) and `"b"` (holding `y = 2`), then
`dictionary_sort_hash`.  Since `hash "b" < hash "a"` the sort swaps the two
slots, while the cache still maps `hash "b"` to the slot that now holds
section `"a"`. -/
def stSwap : DState :=
  dictionary_sort_hash
    ((dictionary_set true true
      ((dictionary_set true true DState.mk0 "a:x" (some "1")).2)
      "b:y" (some "2")).2)

/-- A named section `"k"` (holding `a = 1`) and a global key `k = 7`. -/
def stKK : DState :=
  (dictionary_set true true
    ((dictionary_set true true DState.mk0 "k:a" (some "1")).2) "k" (some "7")).2

/-! ## Specification-side definitions and hypothesis predicates -/

/-- Spec-side rendering of one section's live pairs, written from the spec's
words ("iterate all slots up to `count`, yielding only non-tombstoned ones,
in array order"): keep the slots whose key is present, in order. -/
def spec_livePairs (de : dictentry) : List dumpLine :=
  (de.kvlist.filter (fun kv => kv.key.isSome)).map
    (fun kv => dumpLine.pair (kv.key.getD "") kv.val)

/-- Spec-side rendering of a whole dictionary, written from the claim's
words: the unnamed section's live pairs first without a header, then for
every section slot with `count > 0` a `[name]` header followed by that
section's live pairs, slots with `count = 0` skipped entirely. -/
def spec_render (d : dictionary) : List dumpLine :=
  spec_livePairs d.noname ++
    ((d.entries.filter (fun de => decide (0 < de.kvlist.length))).map
      (fun de => dumpLine.header de.name :: spec_livePairs de)).flatten

/-- The match predicate of the key-level find loops for address part `k`:
the predicate the unsorted scan of `keyval_find` applies to each slot. -/
def pKV (k : String) : keyval → Bool :=
  itemMatch keyval.hash keyval.key (dictionary_hash k) k

/-- The section produced by the append tail of `dictionary_set`: the old
pairs plus the new `{key, val, hash}` slot, `sorted` cleared, name and
section hash unchanged, capacity `L` (grown or not). -/
def appendedSec (de : dictentry) (k v : String) (L : Nat) : dictentry :=
  { kvlist := de.kvlist ++ [⟨some k, some v, dictionary_hash k⟩],
    len := L, sorted := false, name := de.name, hash := de.hash }

/-- "At most one slot of this pair list matches key `k`" — the per-key form
of the spec's invariant that live keys are unique within a section. -/
def atMostOneMatch (l : List keyval) (k : String) : Bool :=
  decide (l.countP (pKV k) ≤ 1)

/-- Hypotheses under which the amended deletion claim (C8) holds, stated on
the pre-state.  For a sectioned address `s:k`: the cache does not alias hash
of `s`; every section slot matching `(hash s, s)` is unsorted and holds at
most one pair matching `(hash k, k)`; the section array has spare capacity
(so a possible section creation stays within `calloc`-initialised slots);
and both parts are non-empty (a valid address).  For a bare address `a`: no
section slot matches `(hash a, a)` (otherwise the documented special case
deletes that whole section instead of the global key); the cache does not
alias hash of `a`; the unnamed section is unsorted and holds at most one
pair matching `(hash a, a)`; and `a` is non-empty. -/
def C8hyp (st : DState) (a : String) : Bool :=
  match splitColon a with
  | some (s, k) =>
    (st.hash_last != dictionary_hash s) &&
    (st.d.entries.all (fun de =>
      !(secMatch (dictionary_hash s) s de) ||
        (!de.sorted && atMostOneMatch de.kvlist k))) &&
    (decide (st.d.entries.length < st.d.len)) &&
    (s != "" && k != "")
  | none =>
    (st.hash_last != dictionary_hash a) &&
    (st.d.entries.all (fun de => !(secMatch (dictionary_hash a) a de))) &&
    (!st.d.noname.sorted && atMostOneMatch st.d.noname.kvlist a) &&
    (a != "")

/-- "The address names no existing live key", phrased through the code's own
resolution: the section resolved for `a` (per `dictionary_set`'s paths)
contains no pair found by `keyval_find`. -/
def noLiveKeyAt (st : DState) (a : String) : Bool :=
  match splitColon a with
  | some (s, k) =>
    match dictentry_find st s with
    | (some r, st1) => (keyval_find (derefSec st1.d r) k).isNone
    | (none, _) => true
  | none => (keyval_find st.d.noname a).isNone

/-! ## Claim theorems: concrete failing runs

Each of the following theorems evaluates the embedded code on a concrete
call sequence that is reachable from a fresh dictionary. -/

/-- C1 (round-trip) fails on the code: starting from a fresh dictionary,
after `set("s:x","1")`, `set("s",NULL)` (section delete) and then
`set("s:x","2")` — which returns success — an immediately following
`get("s:x", "def")` returns the default `"def"`, not `"2"`.  The section
delete leaves the global cache pointing at the tombstoned slot with the old
`hash "s"`, so the third `set` resurrects the tombstone as a nameless
section that `get` can no longer resolve. -/
theorem C1_roundtrip_fails :
    (dictionary_set true true stS2 "s:x" (some "2")).1 = 0 ∧
    (dictionary_get (dictionary_set true true stS2 "s:x" (some "2")).2
      "s:x" (some "def")).1 = some "def" := by decide

/-- C2 (find must string-compare) fails on the code: in the reachable state
`stS2` (section `"s"` created then deleted), `dictentry_find` for `"s"`
returns `&entries[0]` purely on the cache hash match `hash_last == hash`,
yet that slot's name is NULL — not equal to `"s"`.  No string comparison was
performed. -/
theorem C2_cache_match_without_compare :
    (dictentry_find stS2 "s").1 = some (SecRef.idx 0) ∧
    (derefSec stS2.d (SecRef.idx 0)).name = none := by decide

/-- C3 (collision correctness) fails on the code: `"aqaa"` and `"elue"` are
distinct keys with equal hash; with both stored (plus two larger-hash keys)
and the section hash-sorted, `"aqaa"` sits live in slot 0 at the start of its
collision cluster, yet `get` returns the default for it (while `"elue"` is
still found).  The cluster scan `while(i && kvlist[--i].hash == hash);`
stops at index 0 and the forward loop pre-increments past it, so a cluster
starting at slot 0 never gets its first element string-compared. -/
theorem C3_collision_cluster_at_zero_lost :
    dictionary_hash "aqaa" = dictionary_hash "elue" ∧ "aqaa" ≠ "elue" ∧
    (stCol.d.noname.kvlist.getD 0 keyval.zero).key = some "aqaa" ∧
    (stCol.d.noname.kvlist.getD 0 keyval.zero).val = some "1" ∧
    (dictionary_get stCol "aqaa" (some "def")).1 = some "def" ∧
    (dictionary_get stCol "elue" (some "def")).1 = some "2" := by decide

/-- C4 (sort invariance) fails on the code: with global keys `a = 1`,
`b = 2`, the live address `"b"` is retrievable before sorting, but after
`sort_by_hash` followed by `sort_by_name` it returns the default:
`dictentry_sort_nm` reorders the pairs by name while leaving the
hash-`sorted` flag set, so the binary search runs on a name-ordered array. -/
theorem C4_sort_name_after_hash_breaks_get :
    (dictionary_get stAB "b" (some "def")).1 = some "2" ∧
    (dictionary_sort (dictionary_sort_hash stAB)).d.noname.sorted = true ∧
    (dictionary_get (dictionary_sort (dictionary_sort_hash stAB))
      "b" (some "def")).1 = some "def" := by decide

/-- C5 (allocation-failure atomicity) fails on the code: with the section
array full (`n == len = 5`) and the dictionary hash-sorted, a `set` that
needs to create a section but whose `dictionary_grow` fails returns `-1` —
yet the dictionary is not in its pre-call state: `d->sorted` was already
cleared (line 471) before the failed growth. -/
theorem C5_failed_grow_clears_sorted :
    stFull.d.sorted = true ∧
    dictionary_set false true stFull "t:k" (some "v") =
      (-1, { stFull with d := { stFull.d with sorted := false } }) := by decide

/-- C7 (section deletion cascades) fails on the code: after creating
sections `"a"` then `"b"` and calling `sort_by_hash` (which swaps the two
slots under the unchanged cache), `set("b", NULL)` returns success but
tombstones the slot the stale cache points at — section `"a"` — while the
section named `"b"` survives untombstoned with its pair intact. -/
theorem C7_stale_cache_deletes_wrong_section :
    (dictionary_set true true stSwap "b" none).1 = 0 ∧
    ((dictionary_set true true stSwap "b" none).2.d.entries.getD 0
      dictentry.zero).name = some "b" ∧
    ((dictionary_set true true stSwap "b" none).2.d.entries.getD 0
      dictentry.zero).kvlist ≠ [] ∧
    (dictionary_set true true stSwap "b" none).2.d.entries.getD 1
      dictentry.zero = dictentry.zero := by decide

/-- C6's claim is false at a concrete input: a dictionary whose only content
is one unnamed-section pair (`g = 1`, zero sections) is not logically empty
in the claim's sense, yet `dictionary_dump` fails with `DERR_EMPTY` and
renders nothing. -/
theorem C6_cex_global_only_dump_empty :
    dictionary_dump (some stGlobal.d) true = (dicterr.DERR_EMPTY, []) ∧
    dictentry_dump stGlobal.d.noname = [dumpLine.pair "g" (some "1")] := by decide

/-- C8's claim is false at a concrete input: with a live section named `"k"`
and a global key `k = 7`, `set(d, "k", absent)` succeeds but (per the
documented special case) deletes the whole section `"k"` instead of the
global key, so `get(d, "k", "def")` still returns `"7"`, not the default. -/
theorem C8_cex_bare_address_names_section :
    (dictionary_set true true stKK "k" none).1 = 0 ∧
    (dictionary_get (dictionary_set true true stKK "k" none).2
      "k" (some "def")).1 = some "7" := by decide

/-- C9's claim is false at a concrete input: `dictionary_get` with a NULL
dictionary and the bare address `"k"` does not fail fast — it dereferences
the NULL dictionary (`de = d->noname`), i.e. undefined behaviour. -/
theorem C9_cex_get_null_dict_bare_deref :
    dictionary_getN none (some "k") (some "def") = CResult.undef := by decide

/-! ## Dump characterisation (C6 amended) -/

/-- The code's tombstone-skipping rendering of a pair list equals the
spec-side filter-then-render form. -/
theorem livePairs_aux (l : List keyval) :
    l.filterMap (fun kv => kv.key.map (fun k => dumpLine.pair k kv.val)) =
      (l.filter (fun kv => kv.key.isSome)).map
        (fun kv => dumpLine.pair (kv.key.getD "") kv.val) := by
  induction l with
  | nil => rfl
  | cons kv l ih => cases hk : kv.key <;> simp [hk, ih]

/-- `dictentry_dump` renders exactly the live pairs, in array order. -/
theorem dictentry_dump_eq_spec (de : dictentry) :
    dictentry_dump de = spec_livePairs de :=
  livePairs_aux de.kvlist

/-- The section loop of `dictionary_dump` equals the spec-side
filter-by-count form. -/
theorem dump_sections_aux (l : List dictentry) :
    (l.map (fun de =>
      if de.kvlist = [] then []
      else dumpLine.header de.name :: spec_livePairs de)).flatten =
      ((l.filter (fun de => decide (0 < de.kvlist.length))).map
        (fun de => dumpLine.header de.name :: spec_livePairs de)).flatten := by
  induction l with
  | nil => rfl
  | cons de l ih =>
    by_cases h : de.kvlist = []
    · simp [h, ih]
    · have hp : 0 < de.kvlist.length := List.length_pos.mpr h
      simp [h, hp, ih]

/-- C6 (amended): `dictionary_dump` fails with bad-input exactly on a null
dictionary or sink; it fails with `DERR_EMPTY` exactly when the dictionary
has zero section slots — even if unnamed pairs exist, which are then not
rendered; otherwise it renders the unnamed section's live pairs first
without a header, then for every section slot with `count > 0` a `[name]`
header followed by that section's live pairs, skipping `count == 0` slots. -/
theorem C6_dump_characterised (dOpt : Option dictionary) (outOk : Bool) :
    dictionary_dump dOpt outOk =
      match dOpt with
      | none => (dicterr.DERR_BADDATA, [])
      | some d =>
        if outOk = false then (dicterr.DERR_BADDATA, [])
        else if d.entries.length = 0 then (dicterr.DERR_EMPTY, [])
        else (dicterr.DERR_OK, spec_render d) := by
  cases dOpt with
  | none => rfl
  | some d =>
    cases outOk with
    | false => rfl
    | true =>
      by_cases h : d.entries.length = 0
      · simp [dictionary_dump, h]
      · have h1 : ¬ d.entries.length < 1 := by omega
        simp [dictionary_dump, h, h1, spec_render, dictentry_dump_eq_spec,
          dump_sections_aux]

/-! ## Null-argument behaviour (C9 amended) -/

/-- C9 (amended): `dictionary_set` with a null dictionary or address fails
fast with `-1`, mutating nothing; `dictionary_get` performs no validation —
with a null dictionary and a sectioned address it returns the default
without dereferencing, while a null address, or a null dictionary with a
bare address, dereferences the null input (undefined behaviour). -/
theorem C9_null_argument_behaviour :
    (∀ (aD aE : Bool) (key val : Option String),
        dictionary_setN aD aE none key val = (-1, none)) ∧
    (∀ (aD aE : Bool) (st : DState) (val : Option String),
        dictionary_setN aD aE (some st) none val = (-1, some st)) ∧
    (∀ (k : String) (dflt : Option String), splitColonL k.data ≠ none →
        dictionary_getN none (some k) dflt = .ok (dflt, none)) ∧
    (∀ (k : String) (dflt : Option String), splitColonL k.data = none →
        dictionary_getN none (some k) dflt = .undef) ∧
    (∀ (st : Option DState) (dflt : Option String),
        dictionary_getN st none dflt = .undef) := by
  refine ⟨fun _ _ _ _ => rfl, fun _ _ _ _ => rfl, ?_, ?_, fun st _ => by cases st <;> rfl⟩
  · intro k dflt h
    match hs : splitColonL k.data with
    | none => exact absurd hs h
    | some p => simp [dictionary_getN, hs]
  · intro k dflt h
    simp [dictionary_getN, h]

/-- Witness for C9: the sectioned-address null-dictionary case and the
bare-address undefined-behaviour case, at concrete inputs. -/
theorem C9_null_argument_witness :
    dictionary_getN none (some "s:k") (some "d") = .ok (some "d", none) ∧
    dictionary_getN none (some "g") (some "d") = .undef :=
  ⟨C9_null_argument_behaviour.2.2.1 "s:k" (some "d") (by decide),
   C9_null_argument_behaviour.2.2.2.1 "g" (some "d") (by decide)⟩

/-! ## Replacement (C10) -/

/-- C10's claim is false at a concrete input: in the reachable state
`stSwap` the live key `y = 2` sits in the live section named `"b"`, so the
address `b:y` names an existing live key — yet `set(d, "b:y", "9")` resolves
`"b"` through the stale cache to the slot now holding section `"a"`, misses
`y` there, returns success, and leaves the pair at address `b:y` still equal
to `"2"` while appending a `y = 9` pair into section `"a"`, whose count goes
from 1 to 2.  Far more than that one pair's value field changed. -/
theorem C10_cex_stale_cache_wrong_section :
    ((stSwap.d.entries.getD 0 dictentry.zero).name = some "b" ∧
     (stSwap.d.entries.getD 0 dictentry.zero).kvlist.getD 0 keyval.zero =
       ⟨some "y", some "2", dictionary_hash "y"⟩) ∧
    (dictionary_set true true stSwap "b:y" (some "9")).1 = 0 ∧
    ((dictionary_set true true stSwap "b:y" (some "9")).2.d.entries.getD 0
        dictentry.zero).kvlist.getD 0 keyval.zero =
      ⟨some "y", some "2", dictionary_hash "y"⟩ ∧
    ((dictionary_set true true stSwap "b:y" (some "9")).2.d.entries.getD 1
        dictentry.zero).kvlist.length = 2 ∧
    (stSwap.d.entries.getD 1 dictentry.zero).kvlist.length = 1 := by decide

/-- C10 (amended): replacement is minimal for the key the code actually
resolves.  When the code's resolution of the address finds a section `r`
(`dictentry_find` for a sectioned address, the unnamed section for a bare
one) and `keyval_find` finds slot `i` there, `dictionary_set` with a
non-null value returns 0 and the new state is exactly the old one with that
single slot's `val` field replaced (`setValKV` changes nothing else): the
pair's key and hash, all positions, the section's count, capacity, `sorted`
flag and name, every other section, and the cache left by the resolution
are unchanged — for sectioned and for bare addresses alike. -/
theorem C10_replace_minimal :
    (∀ (aD aE : Bool) (st : DState) (a s k v : String) (r : SecRef)
        (st1 : DState) (i : Nat),
      splitColon a = some (s, k) →
      dictentry_find st s = (some r, st1) →
      keyval_find (derefSec st1.d r) k = some i →
      dictionary_set aD aE st a (some v) =
        (0, { st1 with d := updateSec st1.d r (fun e => setValKV e i v) })) ∧
    (∀ (aD aE : Bool) (st : DState) (a v : String) (i : Nat),
      splitColon a = none →
      keyval_find st.d.noname a = some i →
      dictionary_set aD aE st a (some v) =
        (0, { st with d := updateSec st.d .noname (fun e => setValKV e i v) })) := by
  constructor
  · intro aD aE st a s k v r st1 i hsplit hfind hkv
    simp [dictionary_set, hsplit, hfind, setCommon, hkv]
  · intro aD aE st a v i hsplit hkv
    simp [dictionary_set, hsplit, setCommon, derefSec, hkv]

/-- Witness for C10: in the reachable state `stS1` (section `"s"` holding
`x = 1`, cache aimed at it), replacing `s:x` by `"9"` returns success and
surgically updates slot 0 of that section. -/
theorem C10_replace_minimal_witness :
    dictionary_set true true stS1 "s:x" (some "9") =
      (0, { stS1 with d := updateSec stS1.d (.idx 0) (fun e => setValKV e 0 "9") }) :=
  C10_replace_minimal.1 true true stS1 "s:x" "s" "x" "9" (.idx 0) stS1 0
    (by decide) (by decide) (by decide)

/-! ## Helper lemmas about lists and the find routines -/

theorem getD_ge (l : List α) (z : α) (i : Nat) (h : l.length ≤ i) :
    l.getD i z = z := by
  induction l generalizing i with
  | nil => cases i <;> rfl
  | cons x xs ih =>
    cases i with
    | zero => simp at h
    | succ j => simpa using ih j (by simpa using h)

theorem getD_mem (l : List α) (z : α) (i : Nat) (h : i < l.length) :
    l.getD i z ∈ l := by
  induction l generalizing i with
  | nil => simp at h
  | cons x xs ih =>
    cases i with
    | zero => simp
    | succ j => exact List.mem_cons_of_mem x (by simpa using ih j (by simpa using h))

theorem getD_set_self (l : List α) (z x : α) (i : Nat) (h : i < l.length) :
    (l.set i x).getD i z = x := by
  induction l generalizing i with
  | nil => simp at h
  | cons a as ih =>
    cases i with
    | zero => rfl
    | succ j => exact ih j (by simpa using h)

theorem getD_append_self (l : List α) (z x : α) :
    (l ++ [x]).getD l.length z = x := by
  induction l with
  | nil => rfl
  | cons a as ih => exact ih

theorem linFindIdx_eq_none_iff (p : α → Bool) (l : List α) :
    linFindIdx p l = none ↔ ∀ x ∈ l, p x = false := by
  induction l with
  | nil => simp [linFindIdx]
  | cons x xs ih =>
    by_cases h : p x = true
    · simp [linFindIdx, h]
    · have h' : p x = false := by simpa using h
      simp [linFindIdx, h', ih]

theorem linFindIdx_some_getD (p : α → Bool) (l : List α) (z : α) (i : Nat)
    (h : linFindIdx p l = some i) :
    i < l.length ∧ p (l.getD i z) = true := by
  induction l generalizing i with
  | nil => simp [linFindIdx] at h
  | cons x xs ih =>
    by_cases hx : p x = true
    · simp [linFindIdx, hx] at h
      subst h
      simpa using hx
    · have hx' : p x = false := by simpa using hx
      simp [linFindIdx, hx'] at h
      obtain ⟨i', hi', rfl⟩ := h
      obtain ⟨h1, h2⟩ := ih i' hi'
      exact ⟨by simpa using Nat.succ_lt_succ h1, by simpa using h2⟩

theorem linFindIdx_set_none (p : α → Bool) (l : List α) (z : α) (i : Nat)
    (hu : l.countP p ≤ 1) (hf : linFindIdx p l = some i) (hz : p z = false) :
    linFindIdx p (l.set i z) = none := by
  induction l generalizing i with
  | nil => simp [linFindIdx] at hf
  | cons x xs ih =>
    by_cases hx : p x = true
    · simp [linFindIdx, hx] at hf
      subst hf
      have hcnt : xs.countP p = 0 := by
        have := List.countP_cons_of_pos p xs (a := x) hx
        omega
      have hnone : linFindIdx p xs = none :=
        (linFindIdx_eq_none_iff p xs).mpr (by
          intro y hy
          have := List.countP_eq_zero.mp hcnt y hy
          simpa using this)
      simp [linFindIdx, hz, hnone]
    · have hx' : p x = false := by simpa using hx
      simp [linFindIdx, hx'] at hf
      obtain ⟨i', hi', rfl⟩ := hf
      have hcnt : xs.countP p ≤ 1 := by
        have := List.countP_cons_of_neg p xs (a := x) (by simp [hx'])
        omega
      simp [linFindIdx, hx', ih i' hcnt hi']

theorem linFindIdx_append_singleton (p : α → Bool) (l : List α) (x : α)
    (h : linFindIdx p l = none) :
    linFindIdx p (l ++ [x]) = if p x then some l.length else none := by
  induction l with
  | nil => simp [linFindIdx]
  | cons a as ih =>
    by_cases ha : p a = true
    · simp [linFindIdx, ha] at h
    · have ha' : p a = false := by simpa using ha
      simp [linFindIdx, ha', Option.map_eq_none'] at h
      have := ih h
      by_cases hx : p x = true <;>
        simp [linFindIdx, ha', this, hx, List.length_cons]

theorem clusterRight_some (hOf : α → Nat) (kOf : α → Option String) (z : α)
    (l : List α) (hash : Nat) (key : String) (lim : Nat) :
    ∀ (fuel i j : Nat), clusterRight hOf kOf z l hash key lim fuel i = some j →
      (hOf (l.getD j z) == hash) = true ∧ (kOf (l.getD j z) == some key) = true := by
  intro fuel
  induction fuel with
  | zero =>
    intro i j h
    simp [clusterRight] at h
  | succ n ih =>
    intro i j h
    simp only [clusterRight] at h
    split at h
    · split at h
      · split at h
        · cases h
          constructor <;> assumption
        · exact ih _ _ h
      · cases h
    · cases h

theorem bfind_some (hOf : α → Nat) (kOf : α → Option String) (z : α)
    (l : List α) (hash : Nat) (key : String) :
    ∀ (fuel down : Nat) (up : Int) (i : Nat),
      bfind hOf kOf z l hash key fuel down up = some i →
      (hOf (l.getD i z) == hash) = true ∧ (kOf (l.getD i z) == some key) = true := by
  intro fuel
  induction fuel with
  | zero =>
    intro d u i h
    simp [bfind] at h
  | succ n ih =>
    intro d u i h
    simp only [bfind] at h
    split at h
    · split at h
      · split at h
        · cases h
          constructor <;> assumption
        · exact clusterRight_some _ _ _ _ _ _ _ _ _ _ h
      · split at h
        · exact ih _ _ _ h
        · exact ih _ _ _ h
    · cases h

theorem secMatch_zero (hash : Nat) (key : String) :
    secMatch hash key dictentry.zero = false := by
  simp [secMatch, itemMatch, dictentry.zero]

theorem secSearch_sound (d : dictionary) (hash : Nat) (key : String) (i : Nat)
    (h : secSearch d hash key = some i) :
    secMatch hash key (d.entries.getD i dictentry.zero) = true := by
  unfold secSearch at h
  split at h
  · have hb := bfind_some dictentry.hash dictentry.name dictentry.zero d.entries hash key
      _ _ _ _ h
    unfold secMatch itemMatch
    rw [hb.1, hb.2]
    rfl
  · exact (linFindIdx_some_getD _ _ dictentry.zero i h).2

theorem secSearch_bound (d : dictionary) (hash : Nat) (key : String) (i : Nat)
    (h : secSearch d hash key = some i) : i < d.entries.length := by
  by_contra hgt
  have hz := getD_ge d.entries dictentry.zero i (by omega)
  have hs := secSearch_sound d hash key i h
  rw [hz, secMatch_zero] at hs
  cases hs

theorem secSearch_none (d : dictionary) (hash : Nat) (key : String)
    (hall : ∀ de ∈ d.entries, secMatch hash key de = false) :
    secSearch d hash key = none := by
  cases hres : secSearch d hash key with
  | none => rfl
  | some i =>
    have hb := secSearch_bound d hash key i hres
    have hs := secSearch_sound d hash key i hres
    rw [hall _ (getD_mem d.entries dictentry.zero i hb)] at hs
    cases hs

theorem dictentry_find_hit (st : DState) (key : String)
    (h : (st.hash_last == dictionary_hash key) = true) :
    dictentry_find st key = (st.de_last, st) := by
  simp [dictentry_find, h]

theorem dictentry_find_miss (st : DState) (key : String)
    (hc : (st.hash_last == dictionary_hash key) = false)
    (hres : secSearch st.d (dictionary_hash key) key = none) :
    dictentry_find st key = (none, st) := by
  simp [dictentry_find, hc, hres]

theorem dictentry_find_found (st : DState) (key : String) (i : Nat)
    (hc : (st.hash_last == dictionary_hash key) = false)
    (hres : secSearch st.d (dictionary_hash key) key = some i) :
    dictentry_find st key =
      (some (.idx i),
       { st with hash_last := (st.d.entries.getD i dictentry.zero).hash,
                 de_last := some (.idx i) }) := by
  simp [dictentry_find, hc, hres]

theorem keyval_find_unsorted (de : dictentry) (key : String) (h : de.sorted = false) :
    keyval_find de key =
      linFindIdx (itemMatch keyval.hash keyval.key (dictionary_hash key) key)
        de.kvlist := by
  simp [keyval_find, h]

theorem kvMatch_zero (hash : Nat) (k : String) :
    itemMatch keyval.hash keyval.key hash k keyval.zero = false := by
  simp [itemMatch, keyval.zero]

theorem kvMatch_new (k v : String) :
    itemMatch keyval.hash keyval.key (dictionary_hash k) k
      ⟨some k, some v, dictionary_hash k⟩ = true := by
  simp [itemMatch]

theorem derefSec_updateSec_self (d : dictionary) (i : Nat)
    (h : i < d.entries.length) :
    ∀ f : dictentry → dictentry,
      derefSec (updateSec d (.idx i) f) (.idx i) = f (derefSec d (.idx i)) := by
  intro f
  show (d.entries.set i (f (d.entries.getD i dictentry.zero))).getD i dictentry.zero =
    f (d.entries.getD i dictentry.zero)
  exact getD_set_self _ _ _ _ h

/-! ## Deletion and re-addition (C8 amended) -/

theorem get_bare_eq (st : DState) (a : String) (dflt : Option String)
    (hsplit : splitColon a = none) :
    dictionary_get st a dflt =
      match keyval_find st.d.noname a with
      | some i => ((st.d.noname.kvlist.getD i keyval.zero).val, st)
      | none => (dflt, st) := by
  simp only [dictionary_get, hsplit]

theorem setAppend2_eq (st : DState) (r : SecRef) (k v : String) :
    setAppend2 true st r k v =
      (0, { st with
        d := updateSec st.d r (fun de => appendedSec de k v
          (if de.kvlist.length == de.len then de.len + 10 else de.len)),
        hash_last := (derefSec st.d r).hash, de_last := some r }) := by
  cases r with
  | noname =>
    by_cases h : (st.d.noname.kvlist.length == st.d.noname.len) = true
    · simp only [setAppend2, appendedSec, updateSec, derefSec, h, if_true]
    · simp only [setAppend2, appendedSec, updateSec, derefSec, h, if_false,
        Bool.false_eq_true]
  | idx i =>
    by_cases h : ((st.d.entries.getD i dictentry.zero).kvlist.length ==
        (st.d.entries.getD i dictentry.zero).len) = true
    · simp only [setAppend2, appendedSec, updateSec, derefSec, h, if_true]
    · simp only [setAppend2, appendedSec, updateSec, derefSec, h, if_false,
        Bool.false_eq_true]

theorem keyval_find_appendedSec (de : dictentry) (k : String)
    (hnone : linFindIdx (pKV k) de.kvlist = none) :
    ∀ (v : String) (L : Nat),
      keyval_find (appendedSec de k v L) k = some de.kvlist.length := by
  intro v L
  have h1 : keyval_find (appendedSec de k v L) k =
      linFindIdx (pKV k) (de.kvlist ++ [⟨some k, some v, dictionary_hash k⟩]) :=
    keyval_find_unsorted _ _ rfl
  rw [h1, linFindIdx_append_singleton _ _ _ hnone]
  simp [pKV, itemMatch]

theorem C8bare (st : DState) (a v dflt : String)
    (hsplit : splitColon a = none)
    (hc : (st.hash_last == dictionary_hash a) = false)
    (hs : ∀ de ∈ st.d.entries, secMatch (dictionary_hash a) a de = false)
    (hn : st.d.noname.sorted = false)
    (hu : st.d.noname.kvlist.countP (pKV a) ≤ 1) :
    (dictionary_set true true st a none).1 = 0 ∧
    (dictionary_get (dictionary_set true true st a none).2 a (some dflt)).1 =
      some dflt ∧
    (dictionary_set true true (dictionary_set true true st a none).2 a (some v)).1 = 0 ∧
    (dictionary_get
      (dictionary_set true true (dictionary_set true true st a none).2 a (some v)).2
      a (some dflt)).1 = some v ∧
    (noLiveKeyAt st a = true → (dictionary_set true true st a none).2.d = st.d) := by
  have hfind : dictentry_find st a = (none, st) :=
    dictentry_find_miss st a hc (secSearch_none _ _ _ hs)
  have hkv : keyval_find st.d.noname a = linFindIdx (pKV a) st.d.noname.kvlist :=
    keyval_find_unsorted _ _ hn
  cases hlin : linFindIdx (pKV a) st.d.noname.kvlist with
  | some i =>
    have hdel : dictionary_set true true st a none =
        (0, { st with d := { st.d with noname := eraseKV st.d.noname i } }) := by
      simp only [dictionary_set, hsplit, hfind, setCommon, derefSec, hkv, hlin]
      rfl
    have hlin2 : linFindIdx (pKV a) ((eraseKV st.d.noname i).kvlist) = none :=
      linFindIdx_set_none _ _ _ _ hu hlin (kvMatch_zero _ _)
    have hkvE : keyval_find (eraseKV st.d.noname i) a = none := by
      have h1 := keyval_find_unsorted (eraseKV st.d.noname i) a rfl
      rw [h1]
      exact hlin2
    have hget : (dictionary_get
        { st with d := { st.d with noname := eraseKV st.d.noname i } } a
        (some dflt)).1 = some dflt := by
      simp only [dictionary_get, hsplit, hkvE]
    have hreadd : dictionary_set true true
        { st with d := { st.d with noname := eraseKV st.d.noname i } } a (some v) =
        setAppend2 true { st with d := { st.d with noname := eraseKV st.d.noname i } }
          SecRef.noname a v := by
      simp only [dictionary_set, hsplit, setCommon, derefSec, hkvE, setAppend]
    refine ⟨by rw [hdel], by rw [hdel]; exact hget, ?_, ?_, ?_⟩
    · rw [hdel, hreadd, setAppend2_eq]
    · rw [hdel, hreadd, setAppend2_eq, get_bare_eq _ _ _ hsplit]
      simp only [updateSec]
      rw [keyval_find_appendedSec _ _ hlin2]
      simp [appendedSec, getD_append_self]
    · intro hno
      rw [noLiveKeyAt] at hno
      simp only [hsplit, hkv, hlin] at hno
      cases hno
  | none =>
    have hkvN : keyval_find st.d.noname a = none := by rw [hkv]; exact hlin
    have hdel : dictionary_set true true st a none = (0, st) := by
      simp only [dictionary_set, hsplit, hfind, setCommon, derefSec, hkvN, setAppend]
    have hreadd : dictionary_set true true st a (some v) =
        setAppend2 true st SecRef.noname a v := by
      simp only [dictionary_set, hsplit, setCommon, derefSec, hkvN, setAppend]
    refine ⟨by rw [hdel], ?_, ?_, ?_, fun _ => by rw [hdel]⟩
    · rw [hdel, get_bare_eq _ _ _ hsplit]
      simp only [hkvN]
    · rw [hdel, hreadd, setAppend2_eq]
    · rw [hdel, hreadd, setAppend2_eq, get_bare_eq _ _ _ hsplit]
      simp only [updateSec]
      rw [keyval_find_appendedSec _ _ hlin]
      simp [appendedSec, getD_append_self]

theorem get_sec_eq (st : DState) (a s k : String) (dflt : Option String)
    (hsplit : splitColon a = some (s, k)) :
    dictionary_get st a dflt =
      match dictentry_find st s with
      | (none, st1) => (dflt, st1)
      | (some r, st1) =>
        match keyval_find (derefSec st1.d r) k with
        | some i => (((derefSec st1.d r).kvlist.getD i keyval.zero).val, st1)
        | none => (dflt, st1) := by
  simp only [dictionary_get, hsplit]

theorem updateSec_idx_length (d : dictionary) (j : Nat) (f : dictentry → dictentry) :
    (updateSec d (.idx j) f).entries.length = d.entries.length := by
  simp [updateSec]

theorem get_hit (st : DState) (a s k : String) (r : SecRef) (dflt : Option String)
    (hsplit : splitColon a = some (s, k))
    (hhit : (st.hash_last == dictionary_hash s) = true)
    (hde : st.de_last = some r) :
    dictionary_get st a dflt =
      (match keyval_find (derefSec st.d r) k with
       | some i => ((derefSec st.d r).kvlist.getD i keyval.zero).val
       | none => dflt, st) := by
  rw [get_sec_eq _ _ _ _ _ hsplit, dictentry_find_hit _ _ hhit, hde]
  show (match keyval_find (derefSec st.d r) k with
        | some i => (((derefSec st.d r).kvlist.getD i keyval.zero).val, st)
        | none => (dflt, st)) = _
  cases keyval_find (derefSec st.d r) k <;> rfl

theorem C8sec (st : DState) (a v dflt s k : String)
    (hsplit : splitColon a = some (s, k))
    (hc : (st.hash_last == dictionary_hash s) = false)
    (hS : ∀ de ∈ st.d.entries, secMatch (dictionary_hash s) s de = true →
        de.sorted = false ∧ de.kvlist.countP (pKV k) ≤ 1)
    (hcap : st.d.entries.length < st.d.len) :
    (dictionary_set true true st a none).1 = 0 ∧
    (dictionary_get (dictionary_set true true st a none).2 a (some dflt)).1 =
      some dflt ∧
    (dictionary_set true true (dictionary_set true true st a none).2 a (some v)).1 = 0 ∧
    (dictionary_get
      (dictionary_set true true (dictionary_set true true st a none).2 a (some v)).2
      a (some dflt)).1 = some v ∧
    (noLiveKeyAt st a = true → (dictionary_set true true st a none).2.d = st.d) := by
  cases hres : secSearch st.d (dictionary_hash s) s with
  | some j =>
    have hj : j < st.d.entries.length := secSearch_bound _ _ _ _ hres
    have hmatch : secMatch (dictionary_hash s) s (st.d.entries.getD j dictentry.zero) =
        true := secSearch_sound _ _ _ _ hres
    have hbeq : ((st.d.entries.getD j dictentry.zero).hash == dictionary_hash s) =
        true := by
      unfold secMatch itemMatch at hmatch
      exact (Bool.and_eq_true _ _ |>.mp hmatch).1
    obtain ⟨hsort, huniq⟩ := hS _ (getD_mem _ _ _ hj) hmatch
    have hfind : dictentry_find st s =
        (some (.idx j),
         { st with hash_last := (st.d.entries.getD j dictentry.zero).hash,
                   de_last := some (.idx j) }) :=
      dictentry_find_found st s j hc hres
    have hkv : keyval_find (st.d.entries.getD j dictentry.zero) k =
        linFindIdx (pKV k) (st.d.entries.getD j dictentry.zero).kvlist :=
      keyval_find_unsorted _ _ hsort
    cases hlin : linFindIdx (pKV k) (st.d.entries.getD j dictentry.zero).kvlist with
    | some i =>
      have hdel : dictionary_set true true st a none =
          (0, { st with
            d := updateSec st.d (.idx j) (fun e => eraseKV e i),
            hash_last := (st.d.entries.getD j dictentry.zero).hash,
            de_last := some (.idx j) }) := by
        simp only [dictionary_set, hsplit, hfind, setCommon, derefSec, hkv, hlin]
      have hlin2 : linFindIdx (pKV k)
          ((eraseKV (st.d.entries.getD j dictentry.zero) i).kvlist) = none :=
        linFindIdx_set_none _ _ _ _ huniq hlin (kvMatch_zero _ _)
      have hkvE : keyval_find (eraseKV (st.d.entries.getD j dictentry.zero) i) k =
          none := by
        have h1 := keyval_find_unsorted
          (eraseKV (st.d.entries.getD j dictentry.zero) i) k rfl
        rw [h1]
        exact hlin2
      have hhit2 : dictentry_find
          ({ st with
            d := updateSec st.d (.idx j) (fun e => eraseKV e i),
            hash_last := (st.d.entries.getD j dictentry.zero).hash,
            de_last := some (.idx j) } : DState) s =
          (some (.idx j),
           { st with
            d := updateSec st.d (.idx j) (fun e => eraseKV e i),
            hash_last := (st.d.entries.getD j dictentry.zero).hash,
            de_last := some (.idx j) }) :=
        dictentry_find_hit _ _ hbeq
      have hreadd : dictionary_set true true
          ({ st with
            d := updateSec st.d (.idx j) (fun e => eraseKV e i),
            hash_last := (st.d.entries.getD j dictentry.zero).hash,
            de_last := some (.idx j) } : DState) a (some v) =
          setAppend2 true
            { st with
              d := updateSec st.d (.idx j) (fun e => eraseKV e i),
              hash_last := (st.d.entries.getD j dictentry.zero).hash,
              de_last := some (.idx j) } (.idx j) k v := by
        simp only [dictionary_set, hsplit, hhit2, setCommon,
          derefSec_updateSec_self _ _ hj]
        simp only [derefSec, hkvE, setAppend]
      refine ⟨by rw [hdel], ?_, ?_, ?_, ?_⟩
      · rw [hdel, get_hit _ _ _ _ _ _ hsplit hbeq rfl]
        simp only [derefSec_updateSec_self _ _ hj]
        simp only [derefSec, hkvE]
      · rw [hdel, hreadd, setAppend2_eq]
      · rw [hdel, hreadd, setAppend2_eq]
        have hj2 : j < (updateSec st.d (.idx j) (fun e => eraseKV e i)).entries.length := by
          rw [updateSec_idx_length]
          exact hj
        rw [get_hit _ _ _ _ _ _ hsplit (by
          simp only [derefSec_updateSec_self _ _ hj]
          exact hbeq) rfl]
        simp only [derefSec_updateSec_self _ _ hj2, derefSec_updateSec_self _ _ hj]
        simp only [derefSec, keyval_find_appendedSec _ _ hlin2]
        simp only [appendedSec, getD_append_self]
      · intro hno
        rw [noLiveKeyAt] at hno
        simp only [hsplit, hfind, derefSec, hkv, hlin] at hno
        cases hno
    | none =>
      have hkvN : keyval_find (st.d.entries.getD j dictentry.zero) k = none := by
        rw [hkv]
        exact hlin
      have hdel : dictionary_set true true st a none =
          (0, { st with
            hash_last := (st.d.entries.getD j dictentry.zero).hash,
            de_last := some (.idx j) }) := by
        simp only [dictionary_set, hsplit, hfind, setCommon, derefSec, hkvN, setAppend]
      have hhit2 : dictentry_find
          ({ st with
            hash_last := (st.d.entries.getD j dictentry.zero).hash,
            de_last := some (.idx j) } : DState) s =
          (some (.idx j),
           { st with
            hash_last := (st.d.entries.getD j dictentry.zero).hash,
            de_last := some (.idx j) }) :=
        dictentry_find_hit _ _ hbeq
      have hreadd : dictionary_set true true
          ({ st with
            hash_last := (st.d.entries.getD j dictentry.zero).hash,
            de_last := some (.idx j) } : DState) a (some v) =
          setAppend2 true
            { st with
              hash_last := (st.d.entries.getD j dictentry.zero).hash,
              de_last := some (.idx j) } (.idx j) k v := by
        simp only [dictionary_set, hsplit, hhit2, setCommon, derefSec, hkvN, setAppend]
      refine ⟨by rw [hdel], ?_, ?_, ?_, fun _ => by rw [hdel]⟩
      · rw [hdel, get_hit _ _ _ _ _ _ hsplit hbeq rfl]
        simp only [derefSec, hkvN]
      · rw [hdel, hreadd, setAppend2_eq]
      · rw [hdel, hreadd, setAppend2_eq]
        rw [get_hit _ _ _ _ _ _ hsplit (by
          simp only [derefSec]
          exact hbeq) rfl]
        simp only [derefSec_updateSec_self _ _ hj]
        simp only [derefSec, keyval_find_appendedSec _ _ hlin]
        simp only [appendedSec, getD_append_self]
  | none =>
    have hfind : dictentry_find st s = (none, st) :=
      dictentry_find_miss st s hc hres
    have hdel : dictionary_set true true st a none = (0, st) := by
      simp only [dictionary_set, hsplit, hfind, setCommon, setAppend]
    have hlenne : (st.d.entries.length == st.d.len) = false := by
      simp
      omega
    have hreadd : dictionary_set true true st a (some v) =
        setAppend2 true
          { st with d :=
            { st.d with sorted := false, entries := st.d.entries ++ [newSec s] } }
          (.idx st.d.entries.length) k v := by
      simp only [dictionary_set, hsplit, hfind, setCommon, setAppend, hlenne]
      rfl
    have e2 : derefSec
        ({ st.d with sorted := false, entries := st.d.entries ++ [newSec s] } :
          dictionary) (SecRef.idx st.d.entries.length) = newSec s := by
      show (st.d.entries ++ [newSec s]).getD st.d.entries.length dictentry.zero =
        newSec s
      exact getD_append_self _ _ _
    have e1 := derefSec_updateSec_self
      ({ st.d with sorted := false, entries := st.d.entries ++ [newSec s] } :
        dictionary) st.d.entries.length (by simp)
    have hnoneNew : linFindIdx (pKV k) (newSec s).kvlist = none := rfl
    refine ⟨by rw [hdel], ?_, ?_, ?_, fun _ => by rw [hdel]⟩
    · rw [hdel, get_sec_eq _ _ _ _ _ hsplit, hfind]
    · rw [hdel, hreadd, setAppend2_eq]
    · rw [hdel, hreadd, setAppend2_eq]
      rw [get_hit _ _ _ _ _ _ hsplit (by
        show ((derefSec _ (SecRef.idx st.d.entries.length)).hash ==
          dictionary_hash s) = true
        rw [e2]
        simp [newSec]) rfl]
      rw [e1, e2]
      simp only []
      rw [keyval_find_appendedSec _ _ hnoneNew]
      simp [appendedSec, newSec]

/-- C8 (amended): deletion and re-addition behave as claimed under the
hypotheses of `C8hyp` — for a bare address, no live section matches it (else
the documented special case deletes that section instead of the global key);
the lookup cache does not alias the address's section hash; the relevant
sections are unsorted with at most one matching slot per key; and the
section array has spare capacity.  Then `set(d, a, absent)` succeeds; an
immediately following `get(d, a, default)` returns the default; re-adding
`a` with a new value succeeds and that value is then retrievable; and when
`a` names no live key the delete leaves the dictionary (though not
necessarily the cache) unchanged while reporting success. -/
theorem C8_delete_readd (st : DState) (a v dflt : String)
    (h : C8hyp st a = true) :
    (dictionary_set true true st a none).1 = 0 ∧
    (dictionary_get (dictionary_set true true st a none).2 a (some dflt)).1 =
      some dflt ∧
    (dictionary_set true true (dictionary_set true true st a none).2 a (some v)).1 = 0 ∧
    (dictionary_get
      (dictionary_set true true (dictionary_set true true st a none).2 a (some v)).2
      a (some dflt)).1 = some v ∧
    (noLiveKeyAt st a = true → (dictionary_set true true st a none).2.d = st.d) := by
  cases hsplit : splitColon a with
  | none =>
    simp only [C8hyp, hsplit, Bool.and_eq_true] at h
    obtain ⟨⟨⟨h1, h2⟩, h3, h4⟩, h5⟩ := h
    refine C8bare st a v dflt hsplit ?_ ?_ ?_ ?_
    · simpa [bne] using h1
    · intro de hde
      have := List.all_eq_true.mp h2 de hde
      simpa using this
    · simpa using h3
    · simpa [atMostOneMatch] using h4
  | some p =>
    obtain ⟨s, k⟩ := p
    simp only [C8hyp, hsplit, Bool.and_eq_true] at h
    obtain ⟨⟨⟨h1, h2⟩, h3⟩, h4⟩ := h
    refine C8sec st a v dflt s k hsplit ?_ ?_ ?_
    · simpa [bne] using h1
    · intro de hde hmatch
      have := List.all_eq_true.mp h2 de hde
      rw [hmatch] at this
      simp only [Bool.not_true, Bool.false_or, Bool.and_eq_true] at this
      exact ⟨by simpa using this.1, by simpa [atMostOneMatch] using this.2⟩
    · simpa using h3

/-- Witness for C8: in the reachable state `stS1` the address `t:y` names no
section and no key; deleting it is a no-op success, and re-adding `t:y = 9`
creates section `t` and makes the value retrievable. -/
theorem C8_delete_readd_witness :
    (dictionary_set true true stS1 "t:y" none).1 = 0 ∧
    (dictionary_get (dictionary_set true true stS1 "t:y" none).2 "t:y"
      (some "dd")).1 = some "dd" ∧
    (dictionary_set true true (dictionary_set true true stS1 "t:y" none).2 "t:y"
      (some "9")).1 = 0 ∧
    (dictionary_get
      (dictionary_set true true (dictionary_set true true stS1 "t:y" none).2 "t:y"
        (some "9")).2 "t:y" (some "dd")).1 = some "9" ∧
    (noLiveKeyAt stS1 "t:y" = true →
      (dictionary_set true true stS1 "t:y" none).2.d = stS1.d) :=
  C8_delete_readd stS1 "t:y" "9" "dd" (by decide)

end IniDict
